import Mathlib

/-!
Shallow embedding of the `ministark` repository.

Embedded source files:
* `src/brainfuck/src/memory_table.rs` — the `MemoryTable` AIR table
  (`derive_matrix`, `pad`, the boundary/transition constraint builders).
* `src/mini-stark/src/prover.rs` — `Prover::generate_proof`, the prover
  orchestrator, and its transcript (`ProverChannel`) interaction sequence.

The crates `algebra`, `fast_poly` and the mini-stark modules `channel`,
`composer`, `fri`, `merkle`, `trace` are not present under `src/`; where a claim
depends on them they are either abstract parameters of the embedding or
modelled from the specification (marked `Modelled from the spec:`).

The prime field `E: PrimeFelt` is embedded as an arbitrary `Field F`.
-/

/-- `algebra::Multivariate<E>`: multivariate constraint polynomials, embedded
extensionally by their evaluation function on an assignment `Nat → F` of the
formal variables. -/
structure Multivariate (F : Type) where
  eval : (Nat → F) → F

namespace Multivariate

variable {F : Type} [Field F]

/-- `Multivariate::constant(c)`. -/
def constant (c : F) : Multivariate F := ⟨fun _ => c⟩

/-- `Multivariate::variables(n)`: the first `n` variable polynomials. -/
def vars (n : Nat) : List (Multivariate F) :=
  (List.range n).map (fun i => ⟨fun v => v i⟩)

instance : Add (Multivariate F) := ⟨fun p q => ⟨fun v => p.eval v + q.eval v⟩⟩

instance : Sub (Multivariate F) := ⟨fun p q => ⟨fun v => p.eval v - q.eval v⟩⟩

instance : Mul (Multivariate F) := ⟨fun p q => ⟨fun v => p.eval v * q.eval v⟩⟩

/-- Subtraction of a scalar (the source writes e.g. `mp_next - mp - one`). -/
instance : HSub (Multivariate F) F (Multivariate F) :=
  ⟨fun p c => ⟨fun v => p.eval v - c⟩⟩

/-- Multiplication by a scalar (the source writes e.g. `cycle.clone() * d`). -/
instance : HMul (Multivariate F) F (Multivariate F) :=
  ⟨fun p c => ⟨fun v => p.eval v * c⟩⟩

end Multivariate

/-- One row of the brainfuck memory table: the `[E; 4]` base columns
`CYCLE`, `MP`, `MEM_VAL`, `DUMMY` (indices 0..3 in the source). -/
structure MemRow (F : Type) where
  cycle : F
  mp : F
  memVal : F
  dummy : F
deriving DecidableEq

/-- The all-zero memory row, used as the (never hit) `getD` fallback. -/
def zeroRow {F : Type} [Field F] : MemRow F := ⟨0, 0, 0, 0⟩

namespace MemoryTable

/-- `MemoryTable::CYCLE`. -/
def CYCLE : Nat := 0

/-- `MemoryTable::MP`. -/
def MP : Nat := 1

/-- `MemoryTable::MEM_VAL`. -/
def MEM_VAL : Nat := 2

/-- `MemoryTable::DUMMY`. -/
def DUMMY : Nat := 3

/-- `MemoryTable::PERMUTATION` (extension column). -/
def PERMUTATION : Nat := 4

variable {F : Type} [Field F]

/-- Checks Rust's `usize::is_power_of_two` (`0` is not a power of two). -/
def isPow2 : Nat → Bool
  | 0 => false
  | 1 => true
  | n + 2 => ((n + 2) % 2 == 0) && isPow2 ((n + 2) / 2)
termination_by n => n
decreasing_by exact Nat.div_lt_self (by omega) (by omega)

/-- The smallest power of two that is `≥ n` (for `n ≥ 1`). -/
def nextPow2 (n : Nat) : Nat := 2 ^ Nat.clog 2 n

/-- The row `vec![last[CYCLE] + one, last[MP], last[MEM_VAL], one]` that
`MemoryTable::pad` pushes: cycle advanced by one, memory pointer and value
carried over, dummy flag set. -/
def dummyStep (r : MemRow F) : MemRow F := ⟨r.cycle + 1, r.mp, r.memVal, 1⟩

/-- One padding-loop body per unit of fuel: `while !len.is_power_of_two()`
push the dummy row derived from the last row.  `none` models the
`last().unwrap()` panic on an empty matrix. -/
def padAux : Nat → List (MemRow F) → Option (List (MemRow F))
  | 0, m => some m
  | fuel + 1, m =>
    if isPow2 m.length then some m
    else
      match m.getLast? with
      | none => none
      | some last => padAux fuel (m ++ [dummyStep last])

/-- `MemoryTable::pad`: pad the matrix with dummy rows up to the next power of
two.  The fuel `nextPow2 len - len` is exactly the number of loop iterations;
the loop itself stops as soon as the length is a power of two. -/
def pad (m : List (MemRow F)) : Option (List (MemRow F)) :=
  padAux (nextPow2 m.length - m.length) m

/-- The chain of rows appended by `pad`, starting from row `r`. -/
def dummyChain (r : MemRow F) : Nat → List (MemRow F)
  | 0 => []
  | k + 1 => dummyStep r :: dummyChain (dummyStep r) k

/-- Each row of the list is the `dummyStep` of its predecessor (the row before
the list for the head). -/
def chainOk : MemRow F → List (MemRow F) → Prop
  | _, [] => True
  | prev, x :: xs => x = dummyStep prev ∧ chainOk x xs

/-- `MemoryTable::transition_constraints`: the materialized transition
constraint polynomials.  The source's comment numbering runs 1–7, but
constraint 2 is only a comment ("implied by 3"); six polynomials are built. -/
def transition_constraints (cycle mp mem_val dummy cycle_next mp_next mem_val_next
    dummy_next : Multivariate F) : List (Multivariate F) :=
  let one : F := 1
  [ (mp_next - mp - one) * (mp_next - mp),
    (mp_next - mp) * mem_val_next,
    (dummy_next - one) * dummy_next,
    (mp_next - mp) * dummy,
    (mem_val_next - mem_val) * dummy,
    (mp_next - mp - one) * (cycle_next - cycle - one) ]

/-- `MemoryTable::base_boundary_constraints`. -/
def base_boundary_constraints : List (Multivariate F) :=
  let vars := Multivariate.vars (F := F) 5
  [ vars.getD CYCLE (Multivariate.constant 0),
    vars.getD MP (Multivariate.constant 0),
    vars.getD MEM_VAL (Multivariate.constant 0) ]

/-- `MemoryTable::extension_boundary_constraints`: the `challenges` argument is
unused and the commented-out `PERMUTATION - 1` constraint is not built. -/
def extension_boundary_constraints (challenges : List F) : List (Multivariate F) :=
  let vars := Multivariate.vars (F := F) 5
  [ vars.getD CYCLE (Multivariate.constant 0),
    vars.getD MP (Multivariate.constant 0),
    vars.getD MEM_VAL (Multivariate.constant 0) ]

/-- `MemoryTable::base_transition_constraints`. -/
def base_transition_constraints : List (Multivariate F) :=
  let vars := Multivariate.vars (F := F) 8
  let cycle := vars.getD CYCLE (Multivariate.constant 0)
  let mp := vars.getD MP (Multivariate.constant 0)
  let mem_val := vars.getD MEM_VAL (Multivariate.constant 0)
  let dummy := vars.getD DUMMY (Multivariate.constant 0)
  let cycle_next := vars.getD (4 + CYCLE) (Multivariate.constant 0)
  let mp_next := vars.getD (4 + MP) (Multivariate.constant 0)
  let mem_val_next := vars.getD (4 + MEM_VAL) (Multivariate.constant 0)
  let dummy_next := vars.getD (4 + DUMMY) (Multivariate.constant 0)
  transition_constraints cycle mp mem_val dummy cycle_next mp_next mem_val_next dummy_next

/-- `MemoryTable::extension_transition_constraints`: the eleven challenges are
taken off an iterator with `next().unwrap()` (`none` models the panic when
fewer than eleven are supplied), the base transition constraints are rebuilt
over ten variables and the running-permutation constraint is pushed last. -/
def extension_transition_constraints (challenges : List F) :
    Option (List (Multivariate F)) :=
  match challenges with
  | a :: b :: c :: d :: e :: f :: alpha :: beta :: gamma :: delta :: eta :: _ =>
    let vars := Multivariate.vars (F := F) 10
    let cycle := vars.getD CYCLE (Multivariate.constant 0)
    let mp := vars.getD MP (Multivariate.constant 0)
    let mem_val := vars.getD MEM_VAL (Multivariate.constant 0)
    let dummy := vars.getD DUMMY (Multivariate.constant 0)
    let permutation := vars.getD PERMUTATION (Multivariate.constant 0)
    let cycle_next := vars.getD (5 + CYCLE) (Multivariate.constant 0)
    let mp_next := vars.getD (5 + MP) (Multivariate.constant 0)
    let mem_val_next := vars.getD (5 + MEM_VAL) (Multivariate.constant 0)
    let dummy_next := vars.getD (5 + DUMMY) (Multivariate.constant 0)
    let permutation_next := vars.getD (5 + PERMUTATION) (Multivariate.constant 0)
    let polynomials := transition_constraints cycle mp mem_val dummy cycle_next
      mp_next mem_val_next dummy_next
    let permutation_constraint :=
      (permutation_next
          - permutation * (Multivariate.constant beta - cycle * d - mp * e - mem_val * f))
        * (dummy - (1 : F))
      + (permutation_next - permutation) * dummy
    some (polynomials ++ [permutation_constraint])
  | _ => none

/-- The assignment, over the `2 * 4` formal variables of the base transition
constraints, given by a current row and a next row. -/
def rowPairAssign (r r₂ : MemRow F) : Nat → F := fun i =>
  match i with
  | 0 => r.cycle
  | 1 => r.mp
  | 2 => r.memVal
  | 3 => r.dummy
  | 4 => r₂.cycle
  | 5 => r₂.mp
  | 6 => r₂.memVal
  | 7 => r₂.dummy
  | _ => 0

end MemoryTable

/-- The two panic sites of `MemoryTable::derive_matrix`: the `matrix.len() - 1`
underflow (empty filtered matrix) and the trailing `todo!()`. -/
inductive DerivePanic
  | lengthUnderflow
  | todoUnimplemented
deriving DecidableEq

/-- The `ProcessorTable` column indices (`CYCLE`, `MP`, `MEM_VAL`, `CURR_INSTR`
of a 7-column processor row) and the `PrimeFelt::into_bigint` sort key used by
`derive_matrix`.  `processor_table.rs` and the `algebra` crate are not under
`src/`, so these are abstract parameters of the embedding. -/
structure DeriveMatrixCtx (F : Type) where
  cycleIdx : Fin 7
  mpIdx : Fin 7
  memValIdx : Fin 7
  currInstrIdx : Fin 7
  bigint : F → Nat

namespace MemoryTable

variable {F : Type} [Field F] [DecidableEq F]

/-- Insert an element into a list sorted by `key` (helper of `sortByKey`). -/
def insertSortedByKey {α : Type} (key : α → Nat) (a : α) : List α → List α
  | [] => [a]
  | b :: bs => if key a < key b then a :: b :: bs else b :: insertSortedByKey key a bs

/-- `Vec::sort_by_key`: stable sort of the rows by key (insertion sort). -/
def sortByKey {α : Type} (key : α → Nat) : List α → List α
  | [] => []
  | a :: xs => insertSortedByKey key a (sortByKey key xs)

/-- The `for i in 0..matrix.len() - 1` dummy-row insertion loop of
`derive_matrix`: at index `i`, when the current and next rows share a memory
pointer but the cycle does not advance by one, a dummy row is inserted at
`i + 1`.  The iteration bound (the fuel) is fixed before the loop starts, as in
Rust, even though insertions grow the matrix. -/
def insertDummyLoop (fuel : Nat) (i : Nat) (m : List (MemRow F)) : List (MemRow F) :=
  match fuel with
  | 0 => m
  | fuel + 1 =>
    let curr := m.getD i zeroRow
    let next := m.getD (i + 1) zeroRow
    let m₂ :=
      if curr.mp = next.mp ∧ curr.cycle + 1 ≠ next.cycle then
        m.insertIdx (i + 1) ⟨curr.cycle + 1, curr.mp, curr.memVal, 1⟩
      else m
    insertDummyLoop fuel (i + 1) m₂

/-- `MemoryTable::derive_matrix`: filter out processor rows whose current
instruction is zero (keeping cycle, memory pointer, memory value, dummy = 0),
sort by the big-integer encoding of the memory pointer, run the dummy-row
insertion loop, and then hit the trailing `todo!()`.  The function can never
return a matrix: `Except.error` models the two panics (the
`matrix.len() - 1` underflow when the filtered matrix is empty, and the
`todo!()` otherwise). -/
def derive_matrix (ctx : DeriveMatrixCtx F) (processor_matrix : List (Fin 7 → F)) :
    Except DerivePanic (List (MemRow F)) :=
  let matrix := processor_matrix.filterMap (fun row =>
    if row ctx.currInstrIdx = 0 then none
    else some ⟨row ctx.cycleIdx, row ctx.mpIdx, row ctx.memValIdx, 0⟩)
  let matrix := sortByKey (fun r => ctx.bigint r.mp) matrix
  if matrix.length = 0 then
    Except.error DerivePanic.lengthUnderflow
  else
    let _ := insertDummyLoop (matrix.length - 1) 0 matrix
    Except.error DerivePanic.todoUnimplemented

end MemoryTable

/-- The mutations `Prover::generate_proof` performs on the `ProverChannel`
transcript, in order of occurrence, each carrying the value committed, sent
or derived. -/
inductive ChannelEvent (F : Type) where
  | commitBaseTrace (root : Nat)
  | deriveChallenges (challenges : List F)
  | commitExtensionTrace (root : Nat)
  | deriveCompositionCoeffs (coeffs : List (F × F))
  | commitCompositionTrace (root : Nat)
  | deriveOodPoint (z : F)
  | sendOodTraceStates (evals evalsNext : List F)
  | sendOodConstraintEvals (evals : List F)
  | deriveDeepCoeffs (coeffs : List F)
  | commitFriLayer (root : Nat)
  | grind (nonce : Nat)
  | deriveQueryPositions (positions : List Nat)

/-- `prover.rs`: `pub enum ProvingError { Fail }`. -/
inductive ProvingError
  | Fail

/-- The observable outcome of a `generate_proof` run: `Ok(proof)` together with
the transcript event log, `Err(e)`, or a panic (assertion failure, `unwrap`,
fatal internal error), carrying the transcript events that happened before the
panic. -/
inductive RunResult (F : Type) (α : Type) where
  | ok (a : α) (log : List (ChannelEvent F))
  | err (e : ProvingError)
  | panic (log : List (ChannelEvent F))

/-- The proof object assembled by `channel.build_proof(queries, fri_proof)`:
the committed roots, the out-of-domain evaluations, the FRI layer roots, the
grinding nonce and the query positions. -/
structure StarkProof (F : Type) where
  baseTraceRoot : Nat
  extensionTraceRoot : Option Nat
  compositionTraceRoot : Nat
  oodTraceEvals : List F
  oodTraceEvalsNext : List F
  oodConstraintEvals : List F
  friLayerRoots : List Nat
  nonce : Nat
  queryPositions : List Nat

/-- Horner evaluation of a coefficient list: models
`Matrix::evaluate_at`-style point evaluation of one column polynomial. -/
def evalPoly {F : Type} [Field F] (coeffs : List F) (x : F) : F :=
  coeffs.foldr (fun c acc => c + x * acc) 0

/-- Modelled from the spec: `ProverChannel::get_ood_point` (`channel.rs` is not
under `src/`).  Per the spec, the out-of-domain point is "drawn from the
transcript, must lie outside both trace and LDE domains ... retried or
rejected if collision is detected", and such collisions are "handled by
redrawing from the transcript (bounded retries), not by failing".  `draw i` is
the `i`-th transcript draw, `collides` the reserved-domain membership test and
the second `Nat` the remaining retry budget (`none` = retries exhausted). -/
def drawOodPoint {F : Type} (draw : Nat → F) (collides : F → Bool) :
    Nat → Nat → Option F
  | i, 0 => if collides (draw i) then none else some (draw i)
  | i, fuel + 1 => if collides (draw i) then drawOodPoint draw collides (i + 1) fuel
      else some (draw i)

/-- The collaborators `Prover::generate_proof` drives, at their interfaces.
The trace/AIR/composer/FRI implementations (`trace.rs`, `air.rs`,
`composer.rs`, `fri.rs`, `channel.rs`, `merkle.rs`) are not under `src/`, so
each is an opaque function field; transcript-derived values are functions of
the event log accumulated so far (the Fiat–Shamir state). -/
structure ProverEnv (F : Type) where
  /-- Result of `air.validate()` after `Air::new(trace_info, pub_inputs, options)`:
  `false` means the validation assertion panics. -/
  airValidateOk : Bool
  /-- `Trace::NUM_BASE_COLUMNS`. -/
  numBaseColumns : Nat
  /-- `Trace::NUM_EXTENSION_COLUMNS`. -/
  numExtensionColumns : Nat
  /-- `trace.base_columns()`, as a list of columns. -/
  baseColumns : List (List F)
  /-- `Matrix::interpolate(trace_domain)`: column-wise interpolation. -/
  interpolate : List (List F) → List (List F)
  /-- `Matrix::evaluate(lde_domain)`: column-wise LDE evaluation. -/
  evaluateLde : List (List F) → List (List F)
  /-- `Matrix::commit_to_rows().root()`: the Merkle root of an LDE matrix. -/
  commitRows : List (List F) → Nat
  /-- `air.get_challenges(&mut channel.public_coin)`. -/
  getChallenges : List (ChannelEvent F) → List F
  /-- `trace.build_extension_columns(&challenges)`. -/
  buildExtensionColumns : List F → Option (List (List F))
  /-- `air.get_constraint_composition_coeffs(&mut channel.public_coin)`. -/
  getCompositionCoeffs : List (ChannelEvent F) → List (F × F)
  /-- `ConstraintComposer::new(&air, coeffs).build_commitment(&challenges, &lde)`:
  returns `(composition_trace_lde, composition_trace_polys, tree root)`. -/
  buildCommitment : List (F × F) → List F → List (List F) →
    List (List F) × List (List F) × Nat
  /-- `trace_domain.group_gen`. -/
  groupGen : F
  /-- The successive transcript draws inside `channel.get_ood_point()`. -/
  drawPoint : List (ChannelEvent F) → Nat → F
  /-- Membership of a drawn point in the reserved (trace/LDE) domains. -/
  inDomain : F → Bool
  /-- The bounded retry budget for out-of-domain point redraws. -/
  oodRetries : Nat
  /-- `air.get_deep_composition_coeffs(&mut channel.public_coin)`. -/
  getDeepCoeffs : List (ChannelEvent F) → List F
  /-- `DeepPolyComposer` pipeline: coefficients, `z`, execution trace polys and
  their OOD evaluations, composition polys and their OOD evaluations, down to
  `into_deep_poly().into_evaluations(lde_domain)` (a matrix). -/
  buildDeepLde : List F → F → List (List F) → List F → List F → List (List F) →
    List F → List (List F)
  /-- The FRI layer roots committed by `fri_prover.build_layers`. -/
  friLayerRoots : List (ChannelEvent F) → List F → List Nat
  /-- The nonce found by `channel.grind_fri_commitments()`. -/
  grindNonce : List (ChannelEvent F) → Nat
  /-- `channel.get_fri_query_positions()`. -/
  getQueryPositions : List (ChannelEvent F) → List Nat

variable {F : Type} [Field F]

/-- `let base_trace_polys = trace.base_columns().interpolate(trace_domain)`. -/
def basePolys (env : ProverEnv F) : List (List F) :=
  env.interpolate env.baseColumns

/-- `let base_trace_lde = base_trace_polys.evaluate(lde_domain)`. -/
def baseLde (env : ProverEnv F) : List (List F) :=
  env.evaluateLde (basePolys env)

/-- The root of `base_trace_lde.commit_to_rows()`. -/
def baseRootOf (env : ProverEnv F) : Nat :=
  env.commitRows (baseLde env)

/-- Transcript after `channel.commit_base_trace(..)`. -/
def logAfterBase (env : ProverEnv F) : List (ChannelEvent F) :=
  [ChannelEvent.commitBaseTrace (baseRootOf env)]

/-- `let challenges = air.get_challenges(&mut channel.public_coin)`. -/
def challengesOf (env : ProverEnv F) : List F :=
  env.getChallenges (logAfterBase env)

/-- Transcript after the challenge draw. -/
def logAfterChallenges (env : ProverEnv F) : List (ChannelEvent F) :=
  logAfterBase env ++ [ChannelEvent.deriveChallenges (challengesOf env)]

/-- `trace.build_extension_columns(&challenges)`. -/
def extTrace (env : ProverEnv F) : Option (List (List F)) :=
  env.buildExtensionColumns (challengesOf env)

/-- The interpolated extension columns (empty when there is no extension trace). -/
def extPolys (env : ProverEnv F) : List (List F) :=
  match extTrace env with
  | some ext => env.interpolate ext
  | none => []

/-- The extension-trace LDE (empty when there is no extension trace). -/
def extLde (env : ProverEnv F) : List (List F) :=
  match extTrace env with
  | some _ => env.evaluateLde (extPolys env)
  | none => []

/-- `num_extension_columns`: `extension_trace.num_cols()` inside the `if let`,
`0` otherwise. -/
def numExtCols (env : ProverEnv F) : Nat :=
  match extTrace env with
  | some ext => ext.length
  | none => 0

/-- `extension_trace_tree`'s root, when an extension trace exists. -/
def extRootOpt (env : ProverEnv F) : Option Nat :=
  match extTrace env with
  | some _ => some (env.commitRows (extLde env))
  | none => none

/-- The `channel.commit_extension_trace(..)` event, present exactly when
`build_extension_columns` returned a matrix. -/
def extLogPart (env : ProverEnv F) : List (ChannelEvent F) :=
  match extTrace env with
  | some _ => [ChannelEvent.commitExtensionTrace (env.commitRows (extLde env))]
  | none => []

/-- Transcript after the (possible) extension-trace commitment. -/
def logAfterExtension (env : ProverEnv F) : List (ChannelEvent F) :=
  logAfterChallenges env ++ extLogPart env

/-- `execution_trace_polys` after the extension append. -/
def executionPolys (env : ProverEnv F) : List (List F) :=
  basePolys env ++ extPolys env

/-- `execution_trace_lde` after the extension append. -/
def executionLde (env : ProverEnv F) : List (List F) :=
  baseLde env ++ extLde env

/-- `let composition_coeffs = air.get_constraint_composition_coeffs(..)`. -/
def compCoeffsOf (env : ProverEnv F) : List (F × F) :=
  env.getCompositionCoeffs (logAfterExtension env)

/-- Transcript after the composition-coefficient draw. -/
def logAfterCompCoeffs (env : ProverEnv F) : List (ChannelEvent F) :=
  logAfterExtension env ++ [ChannelEvent.deriveCompositionCoeffs (compCoeffsOf env)]

/-- `constraint_coposer.build_commitment(&challenges, &execution_trace_lde)`. -/
def compCommit (env : ProverEnv F) : List (List F) × List (List F) × Nat :=
  env.buildCommitment (compCoeffsOf env) (challengesOf env) (executionLde env)

/-- `composition_trace_polys`. -/
def compPolys (env : ProverEnv F) : List (List F) :=
  (compCommit env).2.1

/-- The root of `composition_trace_lde_tree`. -/
def compRootOf (env : ProverEnv F) : Nat :=
  (compCommit env).2.2

/-- Transcript after `channel.commit_composition_trace(..)`. -/
def logAfterCompCommit (env : ProverEnv F) : List (ChannelEvent F) :=
  logAfterCompCoeffs env ++ [ChannelEvent.commitCompositionTrace (compRootOf env)]

/-- `let z = channel.get_ood_point()` (see `drawOodPoint`). -/
def oodDraw (env : ProverEnv F) : Option F :=
  drawOodPoint (env.drawPoint (logAfterCompCommit env)) env.inDomain 0 env.oodRetries

/-- `execution_trace_polys.evaluate_at(z)`. -/
def oodTraceEvals (env : ProverEnv F) (z : F) : List F :=
  (executionPolys env).map (fun p => evalPoly p z)

/-- `execution_trace_polys.evaluate_at(z * g)`. -/
def oodTraceEvalsNext (env : ProverEnv F) (z : F) : List F :=
  (executionPolys env).map (fun p => evalPoly p (z * env.groupGen))

/-- `composition_trace_polys.evaluate_at(z.pow(num_cols))`. -/
def oodConstraintEvalsOf (env : ProverEnv F) (z : F) : List F :=
  (compPolys env).map (fun p => evalPoly p (z ^ (compPolys env).length))

/-- Transcript after the OOD draw and the two OOD-evaluation sends. -/
def logAfterOodSends (env : ProverEnv F) (z : F) : List (ChannelEvent F) :=
  logAfterCompCommit env ++
    [ChannelEvent.deriveOodPoint z,
     ChannelEvent.sendOodTraceStates (oodTraceEvals env z) (oodTraceEvalsNext env z),
     ChannelEvent.sendOodConstraintEvals (oodConstraintEvalsOf env z)]

/-- `let deep_coeffs = air.get_deep_composition_coeffs(..)`. -/
def deepCoeffsOf (env : ProverEnv F) (z : F) : List F :=
  env.getDeepCoeffs (logAfterOodSends env z)

/-- Transcript after the DEEP-coefficient draw. -/
def logAfterDeep (env : ProverEnv F) (z : F) : List (ChannelEvent F) :=
  logAfterOodSends env z ++ [ChannelEvent.deriveDeepCoeffs (deepCoeffsOf env z)]

/-- `deep_composition_poly.into_evaluations(lde_domain)` (a matrix, converted
with `try_into().unwrap()` to a single column). -/
def deepLdeOf (env : ProverEnv F) (z : F) : List (List F) :=
  env.buildDeepLde (deepCoeffsOf env z) z (executionPolys env) (oodTraceEvals env z)
    (oodTraceEvalsNext env z) (compPolys env) (oodConstraintEvalsOf env z)

/-- The FRI layer roots committed by `fri_prover.build_layers(&mut channel, ..)`. -/
def friRootsStage (env : ProverEnv F) (z : F) (col : List F) : List Nat :=
  env.friLayerRoots (logAfterDeep env z) col

/-- Transcript after the FRI layer commitments. -/
def logAfterFri (env : ProverEnv F) (z : F) (col : List F) : List (ChannelEvent F) :=
  logAfterDeep env z ++ (friRootsStage env z col).map ChannelEvent.commitFriLayer

/-- The nonce found by `channel.grind_fri_commitments()`. -/
def grindNonceStage (env : ProverEnv F) (z : F) (col : List F) : Nat :=
  env.grindNonce (logAfterFri env z col)

/-- Transcript after grinding. -/
def logAfterGrind (env : ProverEnv F) (z : F) (col : List F) : List (ChannelEvent F) :=
  logAfterFri env z col ++ [ChannelEvent.grind (grindNonceStage env z col)]

/-- `let query_positions = channel.get_fri_query_positions()`. -/
def queryStage (env : ProverEnv F) (z : F) (col : List F) : List Nat :=
  env.getQueryPositions (logAfterGrind env z col)

/-- The complete transcript of a successful run. -/
def finalLog (env : ProverEnv F) (z : F) (col : List F) : List (ChannelEvent F) :=
  logAfterGrind env z col ++ [ChannelEvent.deriveQueryPositions (queryStage env z col)]

/-- `Prover::generate_proof` (prover.rs lines 33–124): validate the AIR,
interpolate and commit the base trace, draw challenges, build/commit the
extension trace when present, check the column-count assertions, derive
composition coefficients, build and commit the composition trace, draw the
out-of-domain point, send the OOD evaluations, derive DEEP coefficients, build
the DEEP polynomial (whose LDE must convert to a single column, else the
`try_into().unwrap()` panics), commit the FRI layers, grind, derive query
positions, and assemble the proof.  Panics carry the transcript log reached so
far; note the two `assert_eq!` column checks and `air.validate()` happen before
any later transcript event. -/
def generateProof (env : ProverEnv F) : RunResult F (StarkProof F) :=
  if env.airValidateOk = false then RunResult.panic [] else
  if (basePolys env).length ≠ env.numBaseColumns then RunResult.panic [] else
  if numExtCols env ≠ env.numExtensionColumns then RunResult.panic (logAfterExtension env) else
  match oodDraw env with
  | none => RunResult.panic (logAfterCompCommit env)
  | some z =>
    match deepLdeOf env z with
    | [col] =>
      RunResult.ok
        ⟨baseRootOf env, extRootOpt env, compRootOf env, oodTraceEvals env z,
         oodTraceEvalsNext env z, oodConstraintEvalsOf env z, friRootsStage env z col,
         grindNonceStage env z col, queryStage env z col⟩
        (finalLog env z col)
    | [] => RunResult.panic (logAfterDeep env z)
    | _ :: _ :: _ => RunResult.panic (logAfterDeep env z)

/-- A concrete environment over `ℚ` on which `generateProof` succeeds
(used to instantiate the prover theorems). -/
def envOk : ProverEnv ℚ where
  airValidateOk := true
  numBaseColumns := 1
  numExtensionColumns := 0
  baseColumns := [[0, 1]]
  interpolate := id
  evaluateLde := id
  commitRows := List.length
  getChallenges := fun _ => []
  buildExtensionColumns := fun _ => none
  getCompositionCoeffs := fun _ => []
  buildCommitment := fun _ _ _ => ([[1]], [[1]], 5)
  groupGen := 2
  drawPoint := fun _ _ => 3
  inDomain := fun _ => false
  oodRetries := 3
  getDeepCoeffs := fun _ => []
  buildDeepLde := fun _ _ _ _ _ _ _ => [[1, 2]]
  friLayerRoots := fun _ _ => [9]
  grindNonce := fun _ => 42
  getQueryPositions := fun _ => [0, 1]

/-- `envOk` with a wrong `NUM_BASE_COLUMNS` declaration. -/
def envBadBase : ProverEnv ℚ := { envOk with numBaseColumns := 2 }

/-- `envOk` with a failing `air.validate()`. -/
def envInvalidAir : ProverEnv ℚ := { envOk with airValidateOk := false }

/-- The proof object produced on `envOk`. -/
def okPf : StarkProof ℚ :=
  match generateProof envOk with
  | RunResult.ok p _ => p
  | _ => ⟨0, none, 0, [], [], [], [], 0, []⟩

/-- The transcript log produced on `envOk`. -/
def okLog : List (ChannelEvent ℚ) :=
  match generateProof envOk with
  | RunResult.ok _ l => l
  | _ => []

/-- A concrete challenge list over `ℚ` (`a, b, c, d, e, f, alpha, beta, gamma,
delta, eta`) for the permutation-constraint claim. -/
def c4chal : List ℚ := [0, 0, 0, 1, 1, 1, 0, 2, 0, 0, 0]

/-- The extension transition constraints built from `c4chal`. -/
def c4ps : List (Multivariate ℚ) :=
  (MemoryTable.extension_transition_constraints c4chal).getD []

/-- The permutation constraint (last element) of `c4ps`. -/
def c4pc : Multivariate ℚ := c4ps.getLast?.getD (Multivariate.constant 0)

/-- A concrete variable assignment: dummy row (`v 3 = 1`) with equal
permutation values (`v 4 = v 9 = 3`). -/
def c4v : Nat → ℚ := fun i => if i = 3 then 1 else if i = 4 then 3 else if i = 9 then 3 else 0

/-- A concrete three-row memory-table matrix over `ℚ`. -/
def padSample : List (MemRow ℚ) := [⟨0, 0, 0, 0⟩, ⟨1, 0, 0, 0⟩, ⟨2, 0, 0, 0⟩]

/-- A concrete `derive_matrix` context over `ℚ`. -/
def deriveCtxSample : DeriveMatrixCtx ℚ := ⟨0, 4, 5, 2, fun _ => 0⟩

@[simp] theorem Multivariate.mk_eval (f : (Nat → F) → F) (v : Nat → F) :
    (⟨f⟩ : Multivariate F).eval v = f v := rfl

@[simp] theorem Multivariate.add_eval (p q : Multivariate F) (v : Nat → F) :
    (p + q).eval v = p.eval v + q.eval v := rfl

@[simp] theorem Multivariate.sub_eval (p q : Multivariate F) (v : Nat → F) :
    (p - q).eval v = p.eval v - q.eval v := rfl

@[simp] theorem Multivariate.mul_eval (p q : Multivariate F) (v : Nat → F) :
    (p * q).eval v = p.eval v * q.eval v := rfl

@[simp] theorem Multivariate.sub_const_eval (p : Multivariate F) (c : F) (v : Nat → F) :
    (p - c).eval v = p.eval v - c := rfl

@[simp] theorem Multivariate.mul_const_eval (p : Multivariate F) (c : F) (v : Nat → F) :
    (p * c).eval v = p.eval v * c := rfl

@[simp] theorem Multivariate.constant_eval (c : F) (v : Nat → F) :
    (Multivariate.constant c).eval v = c := rfl

/-- C9: `MemoryTable::extension_boundary_constraints` ignores its challenge
argument and returns exactly the three base boundary constraints (cycle,
memory pointer and memory value vanish at row 0); in particular no boundary
constraint touches the permutation extension column. -/
theorem mem_boundary_C9 (cs : List F) :
    MemoryTable.extension_boundary_constraints cs
        = MemoryTable.base_boundary_constraints (F := F)
      ∧ (MemoryTable.extension_boundary_constraints cs).length = 3 :=
  ⟨rfl, rfl⟩

theorem base_transition_constraints_explicit :
    MemoryTable.base_transition_constraints (F := F) =
      [ ((⟨fun v => v 5⟩ : Multivariate F) - ⟨fun v => v 1⟩ - (1 : F))
          * ((⟨fun v => v 5⟩ : Multivariate F) - ⟨fun v => v 1⟩),
        ((⟨fun v => v 5⟩ : Multivariate F) - ⟨fun v => v 1⟩) * ⟨fun v => v 6⟩,
        ((⟨fun v => v 7⟩ : Multivariate F) - (1 : F)) * ⟨fun v => v 7⟩,
        ((⟨fun v => v 5⟩ : Multivariate F) - ⟨fun v => v 1⟩) * ⟨fun v => v 3⟩,
        ((⟨fun v => v 6⟩ : Multivariate F) - ⟨fun v => v 2⟩) * ⟨fun v => v 3⟩,
        ((⟨fun v => v 5⟩ : Multivariate F) - ⟨fun v => v 1⟩ - (1 : F))
          * ((⟨fun v => v 4⟩ : Multivariate F) - ⟨fun v => v 0⟩ - (1 : F)) ] := rfl

/-- Every materialized transition constraint vanishes on the pair
`(r, dummyStep r)` — the padding row against its predecessor. -/
theorem transition_ok_dummyStep (r : MemRow F) :
    ∀ p ∈ MemoryTable.base_transition_constraints (F := F),
      p.eval (MemoryTable.rowPairAssign r (MemoryTable.dummyStep r)) = 0 := by
  intro p hp
  rw [base_transition_constraints_explicit] at hp
  simp only [List.mem_cons, List.not_mem_nil, or_false] at hp
  rcases hp with rfl | rfl | rfl | rfl | rfl | rfl <;>
    simp [MemoryTable.rowPairAssign, MemoryTable.dummyStep]

theorem isPow2_iff (n : Nat) : MemoryTable.isPow2 n = true ↔ ∃ k, n = 2 ^ k := by
  induction n using Nat.strong_induction_on with
  | _ n ih =>
    match n with
    | 0 =>
      simp only [MemoryTable.isPow2]
      constructor
      · intro h; exact absurd h (by simp)
      · rintro ⟨k, hk⟩
        have : 0 < 2 ^ k := Nat.pos_pow_of_pos k (by omega)
        omega
    | 1 =>
      simp only [MemoryTable.isPow2, true_iff]
      exact ⟨0, rfl⟩
    | n + 2 =>
      rw [MemoryTable.isPow2, Bool.and_eq_true, beq_iff_eq,
        ih ((n + 2) / 2) (Nat.div_lt_self (by omega) (by omega))]
      constructor
      · rintro ⟨heven, k, hk⟩
        refine ⟨k + 1, ?_⟩
        have h2 : n + 2 = 2 * ((n + 2) / 2) := by omega
        rw [pow_succ]
        omega
      · rintro ⟨k, hk⟩
        match k with
        | 0 => rw [pow_zero] at hk; omega
        | k + 1 =>
          rw [pow_succ] at hk
          have hpos : 0 < 2 ^ k := Nat.pos_pow_of_pos k (by omega)
          exact ⟨by omega, k, by omega⟩

theorem le_nextPow2 (n : Nat) : n ≤ MemoryTable.nextPow2 n :=
  Nat.le_pow_clog (by omega) n

theorem nextPow2_isPow2 (n : Nat) : MemoryTable.isPow2 (MemoryTable.nextPow2 n) = true :=
  (isPow2_iff _).2 ⟨Nat.clog 2 n, rfl⟩

theorem nextPow2_min {n j : Nat} (h : n ≤ 2 ^ j) : MemoryTable.nextPow2 n ≤ 2 ^ j :=
  Nat.pow_le_pow_right (by omega) ((Nat.le_pow_iff_clog_le (by omega)).1 h)

theorem nextPow2_of_isPow2 {n : Nat} (h : MemoryTable.isPow2 n = true) :
    MemoryTable.nextPow2 n = n := by
  obtain ⟨k, rfl⟩ := (isPow2_iff n).1 h
  exact Nat.le_antisymm (nextPow2_min (le_refl _)) (le_nextPow2 _)

theorem nextPow2_succ_of_lt {n : Nat} (h : n < MemoryTable.nextPow2 n) :
    MemoryTable.nextPow2 (n + 1) = MemoryTable.nextPow2 n := by
  apply Nat.le_antisymm
  · exact nextPow2_min (j := Nat.clog 2 n) h
  · exact nextPow2_min ((Nat.le_succ n).trans (le_nextPow2 (n + 1)))

theorem dummyChain_length (r : MemRow F) (k : Nat) :
    (MemoryTable.dummyChain r k).length = k := by
  induction k generalizing r with
  | zero => rfl
  | succ k ih => simp [MemoryTable.dummyChain, ih]

theorem chainOk_dummyChain (k : Nat) (r : MemRow F) :
    MemoryTable.chainOk r (MemoryTable.dummyChain r k) := by
  induction k generalizing r with
  | zero => trivial
  | succ k ih => exact ⟨rfl, ih (MemoryTable.dummyStep r)⟩

theorem chainOk_getD {prev : MemRow F} {ps : List (MemRow F)}
    (h : MemoryTable.chainOk prev ps) (t : Nat) (ht : t < ps.length) :
    ps.getD t zeroRow = MemoryTable.dummyStep ((prev :: ps).getD t zeroRow) := by
  induction ps generalizing prev t with
  | nil => simp at ht
  | cons x xs ih =>
    obtain ⟨hx, hxs⟩ := h
    match t with
    | 0 => simpa using hx
    | t + 1 =>
      have := ih hxs t (by simpa using ht)
      simpa using this

theorem padAux_chain (fuel : Nat) :
    ∀ (m : List (MemRow F)) (last : MemRow F), m.getLast? = some last →
      m.length + fuel = MemoryTable.nextPow2 m.length →
      MemoryTable.padAux fuel m = some (m ++ MemoryTable.dummyChain last fuel) := by
  induction fuel with
  | zero =>
    intro m last _ _
    simp [MemoryTable.padAux, MemoryTable.dummyChain]
  | succ fuel ih =>
    intro m last hlast hf
    have hlt : m.length < MemoryTable.nextPow2 m.length := by omega
    have hnp : MemoryTable.isPow2 m.length = false := by
      cases hp : MemoryTable.isPow2 m.length with
      | false => rfl
      | true => rw [nextPow2_of_isPow2 hp] at hlt; omega
    have hstep : MemoryTable.padAux (fuel + 1) m
        = MemoryTable.padAux fuel (m ++ [MemoryTable.dummyStep last]) := by
      rw [MemoryTable.padAux, hnp, hlast]
      simp
    rw [hstep]
    have hlen : (m ++ [MemoryTable.dummyStep last]).length = m.length + 1 := by simp
    have hnext : MemoryTable.nextPow2 (m.length + 1) = MemoryTable.nextPow2 m.length :=
      nextPow2_succ_of_lt hlt
    have := ih (m ++ [MemoryTable.dummyStep last]) (MemoryTable.dummyStep last)
      (List.getLast?_concat m) (by rw [hlen, hnext]; omega)
    rw [this]
    simp [MemoryTable.dummyChain, List.append_assoc]

/-- C3 counterexample: the memory table materializes six transition-constraint
polynomials, not seven (the source's comment numbering runs 1–7 but constraint
2 is only a comment, "implied by 3"), so "all seven memory-table transition
constraints" is false of the code. -/
theorem mem_constraint_count_C3_counterexample :
    (MemoryTable.base_transition_constraints (F := ℚ)).length = 6 ∧
      (MemoryTable.base_transition_constraints (F := ℚ)).length ≠ 7 := by
  constructor
  · rfl
  · intro h
    rw [show (MemoryTable.base_transition_constraints (F := ℚ)).length = 6 from rfl] at h
    omega

/-- C3 (amended): for every non-empty memory-table matrix of `n` rows, `pad`
returns a matrix whose row count is the smallest power of two `≥ n`, obtained
by appending padding rows; every appended row is
`(cycle + 1, same mp, same mem_val, dummy = 1)` of its predecessor, and
satisfies all six materialized memory-table transition constraints (the
source's numbering runs to 7 with constraint 2 implied by 3) against that
predecessor. -/
theorem mem_pad_C3 (m : List (MemRow F)) (hm : m ≠ []) :
    ∃ m₂, MemoryTable.pad m = some m₂ ∧
      MemoryTable.isPow2 m₂.length = true ∧
      m.length ≤ m₂.length ∧
      (∀ j, m.length ≤ 2 ^ j → m₂.length ≤ 2 ^ j) ∧
      (∃ ps, m₂ = m ++ ps) ∧
      (MemoryTable.base_transition_constraints (F := F)).length = 6 ∧
      ∀ i, m.length ≤ i → i < m₂.length →
        m₂.getD i zeroRow
            = ⟨(m₂.getD (i - 1) zeroRow).cycle + 1, (m₂.getD (i - 1) zeroRow).mp,
               (m₂.getD (i - 1) zeroRow).memVal, 1⟩ ∧
        ∀ p ∈ MemoryTable.base_transition_constraints (F := F),
          p.eval (MemoryTable.rowPairAssign (m₂.getD (i - 1) zeroRow)
            (m₂.getD i zeroRow)) = 0 := by
  have hlast : m.getLast? = some (m.getLast hm) := List.getLast?_eq_getLast_of_ne_nil hm
  have hge := le_nextPow2 m.length
  have hchain := padAux_chain (MemoryTable.nextPow2 m.length - m.length) m (m.getLast hm)
    hlast (by omega)
  set last := m.getLast hm
  set k := MemoryTable.nextPow2 m.length - m.length with hk
  set ps := MemoryTable.dummyChain last k with hps
  have hpslen : ps.length = k := by rw [hps]; exact dummyChain_length last k
  have hmpos : 0 < m.length := List.length_pos.2 hm
  have hlen : (m ++ ps).length = MemoryTable.nextPow2 m.length := by
    simp only [List.length_append, hpslen]; omega
  refine ⟨m ++ ps, hchain, ?_, ?_, ?_, ⟨ps, rfl⟩, rfl, ?_⟩
  · rw [hlen]; exact nextPow2_isPow2 _
  · rw [hlen]; exact hge
  · intro j hj; rw [hlen]; exact nextPow2_min hj
  · intro i hi hilt
    have hlen2 : (m ++ ps).length = m.length + k := by
      simp only [List.length_append, hpslen]
    have ht : i - m.length < k := by omega
    have hA : (m ++ ps).getD i zeroRow = ps.getD (i - m.length) zeroRow :=
      List.getD_append_right m ps zeroRow i hi
    have hB : (m ++ ps).getD (i - 1) zeroRow = (last :: ps).getD (i - m.length) zeroRow := by
      rcases Nat.eq_or_lt_of_le hi with heq | hlt
    
      · have h0 : i - m.length = 0 := by omega
        have h1 : i - 1 < m.length := by omega
        rw [h0, List.getD_append m ps zeroRow (i - 1) h1, List.getD_cons_zero]
        have : i - 1 = m.length - 1 := by omega
        rw [this, List.getD_eq_getElem m zeroRow (by omega), ← List.getLast_eq_getElem m hm]
      · have h2 : m.length ≤ i - 1 := by omega
        rw [List.getD_append_right m ps zeroRow (i - 1) h2]
        have h3 : i - m.length = (i - 1 - m.length) + 1 := by omega
        rw [h3, List.getD_cons_succ]
    have hrow : ps.getD (i - m.length) zeroRow
        = MemoryTable.dummyStep ((last :: ps).getD (i - m.length) zeroRow) :=
      chainOk_getD (chainOk_dummyChain k last) (i - m.length) (by rw [← hps]; omega)
    rw [hA, hB, hrow]
    exact ⟨rfl, transition_ok_dummyStep _⟩

/-- C3 witness: the padding theorem instantiated on a concrete three-row
matrix over `ℚ`. -/
theorem mem_pad_C3_witness :
    padSample ≠ [] ∧
      (∃ m₂, MemoryTable.pad padSample = some m₂ ∧
        MemoryTable.isPow2 m₂.length = true ∧
        padSample.length ≤ m₂.length ∧
        (∀ j, padSample.length ≤ 2 ^ j → m₂.length ≤ 2 ^ j) ∧
        (∃ ps, m₂ = padSample ++ ps) ∧
        (MemoryTable.base_transition_constraints (F := ℚ)).length = 6 ∧
        ∀ i, padSample.length ≤ i → i < m₂.length →
          m₂.getD i zeroRow
              = ⟨(m₂.getD (i - 1) zeroRow).cycle + 1, (m₂.getD (i - 1) zeroRow).mp,
                 (m₂.getD (i - 1) zeroRow).memVal, 1⟩ ∧
          ∀ p ∈ MemoryTable.base_transition_constraints (F := ℚ),
            p.eval (MemoryTable.rowPairAssign (m₂.getD (i - 1) zeroRow)
              (m₂.getD i zeroRow)) = 0) :=
  ⟨by simp [padSample], mem_pad_C3 padSample (by simp [padSample])⟩

/-- C4: for adjacent memory-table rows with a boolean dummy flag, the
permutation extension-transition constraint (the last constraint pushed by
`extension_transition_constraints`) vanishes iff on a real row
(`dummy = 0`) the next permutation value is
`permutation * (beta - d * cycle - e * mp - f * mem_val)` and on a dummy row
(`dummy = 1`) the permutation value carries over unchanged.  Variables: `v 0..v 4`
are `cycle, mp, mem_val, dummy, permutation` of the current row, `v 5..v 9`
those of the next row. -/
theorem mem_perm_C4 (a b c d e f alpha beta gamma delta eta : F) (rest : List F)
    (v : Nat → F) (hd : v 3 = 0 ∨ v 3 = 1) (ps : List (Multivariate F))
    (hps : MemoryTable.extension_transition_constraints
      (a :: b :: c :: d :: e :: f :: alpha :: beta :: gamma :: delta :: eta :: rest)
        = some ps)
    (pc : Multivariate F) (hpc : ps.getLast? = some pc) :
    pc.eval v = 0 ↔
      ((v 3 = 0 → v 9 = v 4 * (beta - d * v 0 - e * v 1 - f * v 2)) ∧
       (v 3 = 1 → v 9 = v 4)) := by
  obtain rfl := Option.some.inj hps
  have hpc2 : some (((⟨fun w => w 9⟩ : Multivariate F)
      - (⟨fun w => w 4⟩ : Multivariate F)
          * (Multivariate.constant beta - (⟨fun w => w 0⟩ : Multivariate F) * d
              - (⟨fun w => w 1⟩ : Multivariate F) * e
              - (⟨fun w => w 2⟩ : Multivariate F) * f))
        * ((⟨fun w => w 3⟩ : Multivariate F) - (1 : F))
      + ((⟨fun w => w 9⟩ : Multivariate F) - (⟨fun w => w 4⟩ : Multivariate F))
          * (⟨fun w => w 3⟩ : Multivariate F)) = some pc := hpc
  obtain rfl := Option.some.inj hpc2
  have hval :
      (((⟨fun w => w 9⟩ : Multivariate F)
        - (⟨fun w => w 4⟩ : Multivariate F)
            * (Multivariate.constant beta - (⟨fun w => w 0⟩ : Multivariate F) * d
                - (⟨fun w => w 1⟩ : Multivariate F) * e
                - (⟨fun w => w 2⟩ : Multivariate F) * f))
          * ((⟨fun w => w 3⟩ : Multivariate F) - (1 : F))
        + ((⟨fun w => w 9⟩ : Multivariate F) - (⟨fun w => w 4⟩ : Multivariate F))
            * (⟨fun w => w 3⟩ : Multivariate F)).eval v
      = (v 9 - v 4 * (beta - v 0 * d - v 1 * e - v 2 * f)) * (v 3 - 1)
        + (v 9 - v 4) * v 3 := by simp
  rw [hval]
  rcases hd with h0 | h1
  · rw [h0]
    constructor
    · intro hE
      refine ⟨fun _ => ?_, fun h1 => absurd h1 zero_ne_one⟩
      have h2 : v 9 - v 4 * (beta - v 0 * d - v 1 * e - v 2 * f) = 0 := by
        linear_combination -hE
      linear_combination h2
    · rintro ⟨hA, _⟩
      linear_combination -(hA rfl)
  · rw [h1]
    constructor
    · intro hE
      refine ⟨fun h0 => absurd h0 one_ne_zero, fun _ => ?_⟩
      linear_combination hE
    · rintro ⟨_, hB⟩
      linear_combination hB rfl

/-- C4 witness: the permutation-constraint characterization instantiated on
the concrete challenges `c4chal` and assignment `c4v` over `ℚ`. -/
theorem mem_perm_C4_witness :
    ((c4v 3 = (0 : ℚ) ∨ c4v 3 = 1) ∧
      MemoryTable.extension_transition_constraints c4chal = some c4ps ∧
      c4ps.getLast? = some c4pc) ∧
    (c4pc.eval c4v = 0 ↔
      ((c4v 3 = 0 → c4v 9 = c4v 4 * (2 - 1 * c4v 0 - 1 * c4v 1 - 1 * c4v 2)) ∧
       (c4v 3 = 1 → c4v 9 = c4v 4))) :=
  ⟨⟨Or.inr rfl, rfl, rfl⟩,
    mem_perm_C4 0 0 0 1 1 1 0 2 0 0 0 [] c4v (Or.inr rfl) c4ps rfl c4pc rfl⟩

theorem drawOodPoint_succeeds (draw : Nat → F) (collides : F → Bool) :
    ∀ fuel i j, j ≤ fuel → collides (draw (i + j)) = false →
      ∃ z, drawOodPoint draw collides i fuel = some z ∧ collides z = false := by
  intro fuel
  induction fuel with
  | zero =>
    intro i j hj hgood
    have hj0 : j = 0 := by omega
    subst hj0
    rw [Nat.add_zero] at hgood
    exact ⟨draw i, by simp [drawOodPoint, hgood], hgood⟩
  | succ fuel ih =>
    intro i j hj hgood
    cases hc : collides (draw i) with
    | false => exact ⟨draw i, by simp [drawOodPoint, hc], hc⟩
    | true =>
      have hj0 : j ≠ 0 := by
        intro h
        subst h
        rw [Nat.add_zero] at hgood
        rw [hc] at hgood
        exact Bool.noConfusion hgood
      obtain ⟨j₂, rfl⟩ : ∃ j₂, j = j₂ + 1 := ⟨j - 1, by omega⟩
      obtain ⟨z, hz, hcz⟩ := ih (i + 1) j₂ (by omega)
        (by rw [show i + 1 + j₂ = i + (j₂ + 1) by omega]; exact hgood)
      exact ⟨z, by simp [drawOodPoint, hc, hz], hcz⟩

/-- C5: when the drawn out-of-domain point collides with a reserved domain,
the (spec-modelled) `get_ood_point` redraws the next transcript point with a
decremented retry budget, and — as long as some draw within the budget is
collision-free — succeeds with a non-colliding point instead of failing. -/
theorem ood_redraw_C5 (draw : Nat → F) (collides : F → Bool) (fuel j : Nat)
    (hcol : collides (draw 0) = true) (hj : j ≤ fuel)
    (hgood : collides (draw j) = false) :
    drawOodPoint draw collides 0 fuel = drawOodPoint draw collides 1 (fuel - 1) ∧
      drawOodPoint draw collides 0 fuel ≠ none ∧
      ∃ z, drawOodPoint draw collides 0 fuel = some z ∧ collides z = false := by
  have hj0 : j ≠ 0 := by
    intro h
    subst h
    rw [hcol] at hgood
    exact Bool.noConfusion hgood
  obtain ⟨f₂, rfl⟩ : ∃ f₂, fuel = f₂ + 1 := ⟨fuel - 1, by omega⟩
  obtain ⟨z, hz, hcz⟩ := drawOodPoint_succeeds draw collides (f₂ + 1) 0 j hj
    (by rw [Nat.zero_add]; exact hgood)
  refine ⟨by simp [drawOodPoint, hcol], by rw [hz]; simp, z, hz, hcz⟩

/-- C5 witness: the redraw theorem instantiated with the transcript draws
`0, 1, 2, ...` over `ℚ`, collision predicate "is zero", and retry budget 2:
the first draw collides, the second does not. -/
theorem ood_redraw_C5_witness :
    ((fun x : ℚ => decide (x = 0)) ((fun n : Nat => (n : ℚ)) 0) = true ∧
      1 ≤ 2 ∧
      (fun x : ℚ => decide (x = 0)) ((fun n : Nat => (n : ℚ)) 1) = false) ∧
    (drawOodPoint (fun n : Nat => (n : ℚ)) (fun x => decide (x = 0)) 0 2
        = drawOodPoint (fun n : Nat => (n : ℚ)) (fun x => decide (x = 0)) 1 1 ∧
      drawOodPoint (fun n : Nat => (n : ℚ)) (fun x => decide (x = 0)) 0 2 ≠ none ∧
      ∃ z, drawOodPoint (fun n : Nat => (n : ℚ)) (fun x => decide (x = 0)) 0 2 = some z ∧
        (fun x : ℚ => decide (x = 0)) z = false) :=
  ⟨⟨by decide, by decide, by decide⟩,
    ood_redraw_C5 (fun n : Nat => (n : ℚ)) (fun x => decide (x = 0)) 2 1
      (by decide) (by decide) (by decide)⟩

/-- C8: `MemoryTable::derive_matrix` never returns a matrix: every run ends in
a panic — the `matrix.len() - 1` length underflow when the filtered matrix is
empty (in particular whenever every processor row has a zero current
instruction), and the trailing `todo!()` otherwise. -/
theorem derive_matrix_C8 [DecidableEq F] (ctx : DeriveMatrixCtx F)
    (pm : List (Fin 7 → F)) :
    (∀ v, MemoryTable.derive_matrix ctx pm ≠ Except.ok v) ∧
      ((∀ row ∈ pm, row ctx.currInstrIdx = 0) →
        MemoryTable.derive_matrix ctx pm = Except.error DerivePanic.lengthUnderflow) := by
  constructor
  · intro v h
    have h2 : (if (MemoryTable.sortByKey (fun r => ctx.bigint r.mp)
        (pm.filterMap (fun row =>
          if row ctx.currInstrIdx = 0 then none
          else some (⟨row ctx.cycleIdx, row ctx.mpIdx, row ctx.memValIdx, 0⟩ : MemRow F)))).length
            = 0
        then (Except.error DerivePanic.lengthUnderflow : Except DerivePanic (List (MemRow F)))
        else Except.error DerivePanic.todoUnimplemented) = Except.ok v := h
    split at h2 <;> simp at h2
  · intro hall
    have hfil : pm.filterMap (fun row =>
        if row ctx.currInstrIdx = 0 then none
        else some (⟨row ctx.cycleIdx, row ctx.mpIdx, row ctx.memValIdx, 0⟩ : MemRow F))
          = [] := by
      rw [List.filterMap_eq_nil_iff]
      intro row hrow
      simp [hall row hrow]
    unfold MemoryTable.derive_matrix
    rw [hfil]
    simp [MemoryTable.sortByKey]

/-- C8 witness: `derive_matrix` on the empty processor matrix over `ℚ` panics
with the length underflow and never returns `Ok`. -/
theorem derive_matrix_C8_witness :
    (∀ v, MemoryTable.derive_matrix deriveCtxSample [] ≠ Except.ok v) ∧
      MemoryTable.derive_matrix deriveCtxSample []
        = Except.error DerivePanic.lengthUnderflow :=
  ⟨(derive_matrix_C8 deriveCtxSample []).1,
    (derive_matrix_C8 deriveCtxSample []).2 (by simp)⟩

/-- C10: `generate_proof` never returns the `Err` variant — every run either
returns `Ok` with a completed proof or panics; `ProvingError::Fail` is never
constructed. -/
theorem prover_C10 (env : ProverEnv F) (e : ProvingError) :
    generateProof env ≠ RunResult.err e := by
  intro h
  unfold generateProof at h
  repeat' split at h
  all_goals exact RunResult.noConfusion h

/-- C7: when `air.validate()` fails, `generate_proof` aborts before the
`ProverChannel` is created — the transcript log at the panic is empty, so no
value was absorbed into or drawn from the transcript. -/
theorem prover_C7 (env : ProverEnv F) (hv : env.airValidateOk = false) :
    generateProof env = RunResult.panic [] := by
  unfold generateProof
  rw [hv]
  simp

/-- C7 witness: the validation-failure abort on a concrete environment. -/
theorem prover_C7_witness :
    envInvalidAir.airValidateOk = false ∧
      generateProof envInvalidAir = RunResult.panic [] :=
  ⟨rfl, prover_C7 envInvalidAir rfl⟩

/-- C6: after each trace build step the matrix width is checked against the
declared constant: a base-column mismatch panics before any transcript event,
and an extension-column mismatch panics right after the (possible)
extension-trace commitment, with the transcript log of that point. -/
theorem prover_C6 (env : ProverEnv F) (hv : env.airValidateOk = true) :
    ((basePolys env).length ≠ env.numBaseColumns →
        generateProof env = RunResult.panic []) ∧
      ((basePolys env).length = env.numBaseColumns →
        numExtCols env ≠ env.numExtensionColumns →
          generateProof env = RunResult.panic (logAfterExtension env)) := by
  constructor
  · intro hb
    unfold generateProof
    rw [hv]
    simp [hb]
  · intro hb he
    unfold generateProof
    rw [hv]
    simp [hb, he]

/-- C6 witness: the base-column assertion firing on a concrete environment
whose declared base-column count (2) differs from the actual width (1). -/
theorem prover_C6_witness :
    envBadBase.airValidateOk = true ∧
      (basePolys envBadBase).length ≠ envBadBase.numBaseColumns ∧
      generateProof envBadBase = RunResult.panic [] :=
  ⟨rfl, by decide, (prover_C6 envBadBase rfl).1 (by decide)⟩

/-- C1: on every successful run the transcript is mutated in exactly the
sequence: commit base-trace root, derive challenges, commit extension-trace
root (present iff `build_extension_columns` returned columns), derive
constraint-composition coefficients, commit composition-trace root, derive the
out-of-domain point, send the OOD trace/constraint evaluations, derive DEEP
coefficients, commit the FRI layer roots, grind, derive query positions — and
nothing else. -/
theorem prover_C1 (env : ProverEnv F) (pf : StarkProof F) (log : List (ChannelEvent F))
    (h : generateProof env = RunResult.ok pf log) :
    ∃ (r1 : Nat) (cs : List F) (extPart : List (ChannelEvent F)) (ccs : List (F × F))
      (r3 : Nat) (z : F) (e1 e2 e3 dcs : List F) (frs : List Nat) (n : Nat)
      (qs : List Nat),
      log = [ChannelEvent.commitBaseTrace r1, ChannelEvent.deriveChallenges cs]
          ++ extPart
          ++ [ChannelEvent.deriveCompositionCoeffs ccs,
              ChannelEvent.commitCompositionTrace r3,
              ChannelEvent.deriveOodPoint z,
              ChannelEvent.sendOodTraceStates e1 e2,
              ChannelEvent.sendOodConstraintEvals e3,
              ChannelEvent.deriveDeepCoeffs dcs]
          ++ frs.map ChannelEvent.commitFriLayer
          ++ [ChannelEvent.grind n, ChannelEvent.deriveQueryPositions qs]
      ∧ ((env.buildExtensionColumns cs).isSome = true →
          ∃ r2, extPart = [ChannelEvent.commitExtensionTrace r2])
      ∧ ((env.buildExtensionColumns cs).isSome = false → extPart = []) := by
  unfold generateProof at h
  split at h
  · exact RunResult.noConfusion h
  split at h
  · exact RunResult.noConfusion h
  split at h
  · exact RunResult.noConfusion h
  split at h
  · exact RunResult.noConfusion h
  rename_i z hz
  split at h
  case _ col hcol =>
    rw [RunResult.ok.injEq] at h
    obtain ⟨-, hlog⟩ := h
    subst hlog
    refine ⟨baseRootOf env, challengesOf env, extLogPart env, compCoeffsOf env,
      compRootOf env, z, oodTraceEvals env z, oodTraceEvalsNext env z,
      oodConstraintEvalsOf env z, deepCoeffsOf env z, friRootsStage env z col,
      grindNonceStage env z col, queryStage env z col, ?_, ?_, ?_⟩
    · simp [finalLog, logAfterGrind, logAfterFri, logAfterDeep, logAfterOodSends,
        logAfterCompCommit, logAfterCompCoeffs, logAfterExtension, logAfterChallenges,
        logAfterBase, List.append_assoc]
    · intro hsome
      rcases hx : extTrace env with _ | val
      · unfold extTrace at hx
        rw [hx] at hsome
        simp at hsome
      · exact ⟨env.commitRows (extLde env), by simp [extLogPart, hx]⟩
    · intro hnone
      rcases hx : extTrace env with _ | val
      · simp [extLogPart, hx]
      · unfold extTrace at hx
        rw [hx] at hnone
        simp at hnone
  case _ =>
    exact RunResult.noConfusion h
  case _ =>
    exact RunResult.noConfusion h

/-- C1 witness: the transcript-sequence theorem instantiated on the concrete
environment `envOk`, whose run returns `Ok`. -/
theorem prover_C1_witness :
    generateProof envOk = RunResult.ok okPf okLog ∧
      (∃ (r1 : Nat) (cs : List ℚ) (extPart : List (ChannelEvent ℚ))
        (ccs : List (ℚ × ℚ)) (r3 : Nat) (z : ℚ) (e1 e2 e3 dcs : List ℚ)
        (frs : List Nat) (n : Nat) (qs : List Nat),
        okLog = [ChannelEvent.commitBaseTrace r1, ChannelEvent.deriveChallenges cs]
            ++ extPart
            ++ [ChannelEvent.deriveCompositionCoeffs ccs,
                ChannelEvent.commitCompositionTrace r3,
                ChannelEvent.deriveOodPoint z,
                ChannelEvent.sendOodTraceStates e1 e2,
                ChannelEvent.sendOodConstraintEvals e3,
                ChannelEvent.deriveDeepCoeffs dcs]
            ++ frs.map ChannelEvent.commitFriLayer
            ++ [ChannelEvent.grind n, ChannelEvent.deriveQueryPositions qs]
        ∧ ((envOk.buildExtensionColumns cs).isSome = true →
            ∃ r2, extPart = [ChannelEvent.commitExtensionTrace r2])
        ∧ ((envOk.buildExtensionColumns cs).isSome = false → extPart = [])) :=
  ⟨rfl, prover_C1 envOk okPf okLog rfl⟩

/-- C2: on every successful run, right after the out-of-domain point `z` is
drawn, the channel receives the evaluations of every execution-trace
polynomial at `z` and at `z * g` (`g` the trace-domain generator) and the
evaluations of the composition-trace polynomials at `z ^ h` with `h` the
number of composition-trace columns. -/
theorem prover_C2 (env : ProverEnv F) (pf : StarkProof F) (log : List (ChannelEvent F))
    (h : generateProof env = RunResult.ok pf log) :
    ∃ z post,
      oodDraw env = some z ∧
      log = logAfterCompCommit env
          ++ [ChannelEvent.deriveOodPoint z,
              ChannelEvent.sendOodTraceStates
                ((executionPolys env).map (fun p => evalPoly p z))
                ((executionPolys env).map (fun p => evalPoly p (z * env.groupGen))),
              ChannelEvent.sendOodConstraintEvals
                ((compPolys env).map (fun p => evalPoly p (z ^ (compPolys env).length)))]
          ++ post := by
  unfold generateProof at h
  split at h
  · exact RunResult.noConfusion h
  split at h
  · exact RunResult.noConfusion h
  split at h
  · exact RunResult.noConfusion h
  split at h
  · exact RunResult.noConfusion h
  rename_i z hz
  split at h
  case _ col hcol =>
    rw [RunResult.ok.injEq] at h
    obtain ⟨-, hlog⟩ := h
    subst hlog
    refine ⟨z, [ChannelEvent.deriveDeepCoeffs (deepCoeffsOf env z)]
        ++ (friRootsStage env z col).map ChannelEvent.commitFriLayer
        ++ [ChannelEvent.grind (grindNonceStage env z col),
            ChannelEvent.deriveQueryPositions (queryStage env z col)], hz, ?_⟩
    simp [finalLog, logAfterGrind, logAfterFri, logAfterDeep, logAfterOodSends,
      oodTraceEvals, oodTraceEvalsNext, oodConstraintEvalsOf, List.append_assoc]
  case _ =>
    exact RunResult.noConfusion h
  case _ =>
    exact RunResult.noConfusion h

/-- C2 witness: the OOD-evaluation theorem instantiated on the concrete
environment `envOk`. -/
theorem prover_C2_witness :
    generateProof envOk = RunResult.ok okPf okLog ∧
      (∃ z post,
        oodDraw envOk = some z ∧
        okLog = logAfterCompCommit envOk
            ++ [ChannelEvent.deriveOodPoint z,
                ChannelEvent.sendOodTraceStates
                  ((executionPolys envOk).map (fun p => evalPoly p z))
                  ((executionPolys envOk).map (fun p => evalPoly p (z * envOk.groupGen))),
                ChannelEvent.sendOodConstraintEvals
                  ((compPolys envOk).map
                    (fun p => evalPoly p (z ^ (compPolys envOk).length)))]
            ++ post) :=
  ⟨rfl, prover_C2 envOk okPf okLog rfl⟩

/-- C10 witness: no error value is ever returned on the concrete environment
`envOk`. -/
theorem prover_C10_witness :
    generateProof envOk ≠ RunResult.err ProvingError.Fail :=
  prover_C10 envOk ProvingError.Fail
